import Mathlib

/-!
Verification of the octane fee-sponsorship transaction rewriter.

The repository consists of several drafts of one Next.js API handler that
receives a serialized Solana transaction, makes an operator-controlled
sponsor account the fee payer, co-signs the result with the sponsor key and
returns it.  This file shallowly embeds the post-decode core of each draft:

  - rewriteMessage / handlerPart002 : the draft in src/unnamed/part_002,
    which rebuilds the static account-key table, recomputes the header and
    remaps instruction account indices;
  - draft1NewMessage / handlerDraft1 : the first draft inside
    src/packages/server/pages/api/sponsor-transaction.ts (lines 28-80),
    which rebuilds the key table by filtering but keeps instructions as is;
  - handlerDraft2 : the second draft inside sponsor-transaction.ts
    (lines 113-163), which never rewrites and only co-signs;
  - handlerPart001 : the draft in src/unnamed/part_001, whose version check
    rejects every v0 transaction because the number 0 is falsy in JS.

Public keys are modelled as naturals, signatures as byte lists, and JS
numbers used as account indices as integers (so that the sentinel -1
returned by Array.prototype.findIndex is representable).  The ed25519
signing primitive of the external web3.js library is a parameter sigFn of
each handler; the library's sign method (which looks the signer up among
the first numRequiredSignatures static keys and throws for a non-signer
key) is modelled by signTransaction returning an Option.
-/

/-- Public keys, modelled as naturals; equality is the only operation the
rewriter ever applies to them (PublicKey.equals in the source). -/
abbrev PublicKey := Nat

/-- A signature is a byte list; a fresh slot is 64 zero bytes
(new Uint8Array(64) in the source). -/
abbrev Signature := List Nat

/-- The all-zero signature slot, new Uint8Array(64). -/
def emptySignature : Signature := List.replicate 64 0

/-- The three-counter message header of a Solana message. -/
structure MessageHeader where
  numRequiredSignatures : Nat
  numReadonlySignedAccounts : Nat
  numReadonlyUnsignedAccounts : Nat
deriving DecidableEq

/-- A compiled instruction: a program-id index, account-key indices and
opaque data bytes.  Indices are JS numbers, modelled as integers. -/
structure CompiledInstruction where
  programIdIndex : Int
  accountKeyIndexes : List Int
  data : List Nat
deriving DecidableEq

/-- An address-table lookup, passed through the rewrite untouched. -/
structure MessageAddressTableLookup where
  accountKey : PublicKey
  writableIndexes : List Nat
  readonlyIndexes : List Nat
deriving DecidableEq

/-- The v0 message format (MessageV0 of web3.js). -/
structure MessageV0 where
  header : MessageHeader
  staticAccountKeys : List PublicKey
  recentBlockhash : Nat
  compiledInstructions : List CompiledInstruction
  addressTableLookups : List MessageAddressTableLookup
deriving DecidableEq

/-- The legacy (unversioned) message format. -/
structure LegacyMessage where
  header : MessageHeader
  accountKeys : List PublicKey
  recentBlockhash : Nat
  instructions : List CompiledInstruction
deriving DecidableEq

/-- A decoded message is either a v0 message or a legacy message; the
version getter of VersionedTransaction is determined by which one it is. -/
inductive DecodedMessage
  | v0 (message : MessageV0)
  | legacy (message : LegacyMessage)
deriving DecidableEq

/-- A deserialized VersionedTransaction: a message plus its signature
slots. -/
structure DecodedTransaction where
  message : DecodedMessage
  signatures : List Signature
deriving DecidableEq

/-- The JSON body the handler responds with: either status ok carrying the
sponsored transaction and the sponsor signature, or status error carrying a
message string. -/
inductive ApiResponse
  | ok (transaction : DecodedTransaction) (sponsorSignature : Signature)
  | error (message : String)
deriving DecidableEq

/-- Array.prototype.findIndex over a key list: the index of the first key
equal to the argument, or -1 when there is none. -/
def findIndexJS (keys : List PublicKey) (k : PublicKey) : Int :=
  match keys.findIdx? (· == k) with
  | some i => (i : Int)
  | none => -1

/-- The static account keys of a decoded message: staticAccountKeys for a
v0 message, accountKeys for a legacy message. -/
def DecodedMessage.staticKeys : DecodedMessage → List PublicKey
  | .v0 m => m.staticAccountKeys
  | .legacy m => m.accountKeys

/-- The header of a decoded message. -/
def DecodedMessage.headerOf : DecodedMessage → MessageHeader
  | .v0 m => m.header
  | .legacy m => m.header

/-- VersionedTransaction.sign of web3.js with the single sponsor signer:
the signer is looked up among the first numRequiredSignatures static keys
and its slot is overwritten with sigFn applied to the message; a key that
is not found there makes the library throw, modelled by none. -/
def signTransaction (sigFn : DecodedMessage → Signature) (sponsorPubkey : PublicKey)
    (tx : DecodedTransaction) : Option DecodedTransaction :=
  let signerPubkeys := tx.message.staticKeys.take tx.message.headerOf.numRequiredSignatures
  match signerPubkeys.findIdx? (· == sponsorPubkey) with
  | some signerIndex =>
      some { tx with signatures := tx.signatures.set signerIndex (sigFn tx.message) }
  | none => none

/-- The newStaticAccountKeys computation of part_002 (lines 42-52): if the
sponsor is absent it is prepended; if present at a nonzero index it is
spliced out and prepended; if already at index 0 the table is unchanged. -/
def newStaticAccountKeys (staticAccountKeys : List PublicKey)
    (sponsorPubkey : PublicKey) : List PublicKey :=
  match staticAccountKeys.findIdx? (· == sponsorPubkey) with
  | none => sponsorPubkey :: staticAccountKeys
  | some sponsorKeyIndex =>
      if sponsorKeyIndex = 0 then staticAccountKeys
      else sponsorPubkey :: staticAccountKeys.eraseIdx sponsorKeyIndex

/-- The newHeader computation of part_002 (lines 55-59). -/
def newHeader (header : MessageHeader) : MessageHeader :=
  { numRequiredSignatures := max 2 header.numRequiredSignatures,
    numReadonlySignedAccounts := header.numReadonlySignedAccounts,
    numReadonlyUnsignedAccounts := header.numReadonlyUnsignedAccounts }

/-- The accountIndexMapping built inside part_002's instruction map (lines
64-67): each old index paired with the position of the same key in the new
table as reported by findIndex (-1 when absent). -/
def accountIndexMapping (staticAccountKeys newKeys : List PublicKey) : List (Nat × Int) :=
  staticAccountKeys.enum.map (fun p => (p.1, findIndexJS newKeys p.2))

/-- One entry of part_002's newAccountIndexes (lines 70-73): the mapped
index when the mapping has an entry for the old index, the old index
itself otherwise. -/
def newAccountIndex (staticAccountKeys newKeys : List PublicKey) (oldIndex : Int) : Int :=
  match (accountIndexMapping staticAccountKeys newKeys).find?
      (fun m => ((m.1 : Int) == oldIndex)) with
  | some m => m.2
  | none => oldIndex

/-- The newAccountIndexes computation of part_002 (lines 70-73). -/
def newAccountIndexes (staticAccountKeys newKeys : List PublicKey)
    (accountKeyIndexes : List Int) : List Int :=
  accountKeyIndexes.map (newAccountIndex staticAccountKeys newKeys)

/-- The message rewrite of part_002 (lines 42-88): new key table, new
header, instructions with remapped accountKeyIndexes (programIdIndex and
data are spread through unchanged), blockhash and lookups carried over. -/
def rewriteMessage (message : MessageV0) (sponsorPubkey : PublicKey) : MessageV0 :=
  let newKeys := newStaticAccountKeys message.staticAccountKeys sponsorPubkey
  { header := newHeader message.header,
    staticAccountKeys := newKeys,
    recentBlockhash := message.recentBlockhash,
    compiledInstructions := message.compiledInstructions.map (fun instruction =>
      { instruction with
        accountKeyIndexes :=
          newAccountIndexes message.staticAccountKeys newKeys instruction.accountKeyIndexes }),
    addressTableLookups := message.addressTableLookups }

/-- The post-decode core of the part_002 handler: reject non-v0 messages,
rewrite, allocate one empty slot per required signer, sign with the
sponsor key and answer with the transaction and signature slot 0. -/
def handlerPart002 (sigFn : DecodedMessage → Signature) (sponsorPubkey : PublicKey)
    (tx : DecodedTransaction) : ApiResponse :=
  match tx.message with
  | .legacy _ => .error "Only versioned transactions are supported"
  | .v0 message =>
    let newMessage := rewriteMessage message sponsorPubkey
    let newTransaction : DecodedTransaction :=
      ⟨.v0 newMessage, List.replicate newMessage.header.numRequiredSignatures emptySignature⟩
    match signTransaction sigFn sponsorPubkey newTransaction with
    | none => .error "Cannot sign with non signer key"
    | some signed =>
      match signed.signatures.get? 0 with
      | some s => .ok signed s
      | none => .error "Cannot encode missing signature"

/-- The newMessage of the first draft in sponsor-transaction.ts (lines
35-52): numRequiredSignatures is the constant 2, the key table is the
sponsor followed by all keys different from it, and the instructions are
passed through entirely unchanged. -/
def draft1NewMessage (message : MessageV0) (sponsorPubkey : PublicKey) : MessageV0 :=
  { header := { numRequiredSignatures := 2,
                numReadonlySignedAccounts := message.header.numReadonlySignedAccounts,
                numReadonlyUnsignedAccounts := message.header.numReadonlyUnsignedAccounts },
    staticAccountKeys :=
      sponsorPubkey :: message.staticAccountKeys.filter (fun key => !(key == sponsorPubkey)),
    recentBlockhash := message.recentBlockhash,
    compiledInstructions := message.compiledInstructions,
    addressTableLookups := message.addressTableLookups }

/-- The post-decode core of the first draft in sponsor-transaction.ts
(lines 28-80): rewrite per draft1NewMessage on v0 input, reject legacy
input. -/
def handlerDraft1 (sigFn : DecodedMessage → Signature) (sponsorPubkey : PublicKey)
    (tx : DecodedTransaction) : ApiResponse :=
  match tx.message with
  | .v0 message =>
    let newMessage := draft1NewMessage message sponsorPubkey
    let newTransaction : DecodedTransaction :=
      ⟨.v0 newMessage, List.replicate 2 emptySignature⟩
    match signTransaction sigFn sponsorPubkey newTransaction with
    | none => .error "Cannot sign with non signer key"
    | some signed =>
      match signed.signatures.get? 0 with
      | some s => .ok signed s
      | none => .error "Cannot encode missing signature"
  | .legacy _ => .error "Only versioned transactions are supported"

/-- The post-decode core of the second draft in sponsor-transaction.ts
(lines 113-163): no rewrite at all; on both v0 and legacy input it looks
for the sponsor among the account keys, throws Sponsor not found when it
is absent, otherwise signs the transaction as received and answers with
the slot at the sponsor index. -/
def handlerDraft2 (sigFn : DecodedMessage → Signature) (sponsorPubkey : PublicKey)
    (tx : DecodedTransaction) : ApiResponse :=
  match tx.message with
  | .v0 message =>
    match message.staticAccountKeys.findIdx? (· == sponsorPubkey) with
    | none => .error "Sponsor not found in transaction signers"
    | some sponsorIndex =>
      match signTransaction sigFn sponsorPubkey tx with
      | none => .error "Cannot sign with non signer key"
      | some signed =>
        match signed.signatures.get? sponsorIndex with
        | some s => .ok signed s
        | none => .error "Cannot encode missing signature"
  | .legacy message =>
    match message.accountKeys.findIdx? (· == sponsorPubkey) with
    | none => .error "Sponsor not found in transaction signers"
    | some sponsorIndex =>
      match signTransaction sigFn sponsorPubkey tx with
      | none => .error "Cannot sign with non signer key"
      | some signed =>
        match signed.signatures.get? sponsorIndex with
        | some s => .ok signed s
        | none => .error "Cannot encode missing signature"

/-- The post-decode core of the part_001 handler.  Its guard is the JS
test (not transaction.version): the version getter yields the number 0 for
a v0 message (falsy, so the guard fires and the request is rejected) and
the nonempty string legacy for a legacy message (truthy, so the guard
passes).  On legacy input it signs first, then looks the sponsor up in the
full key list and throws when absent. -/
def handlerPart001 (sigFn : DecodedMessage → Signature) (sponsorPubkey : PublicKey)
    (tx : DecodedTransaction) : ApiResponse :=
  match tx.message with
  | .v0 _ => .error "Invalid transaction version"
  | .legacy message =>
    match signTransaction sigFn sponsorPubkey tx with
    | none => .error "Cannot sign with non signer key"
    | some signed =>
      match message.accountKeys.findIdx? (· == sponsorPubkey) with
      | none => .error "Sponsor not found in transaction signers"
      | some sponsorIndex =>
        match signed.signatures.get? sponsorIndex with
        | some s => .ok signed s
        | none => .error "Cannot encode missing signature"

/-- Resolution of a JS account index against a key table: the key at that
position when the index is a valid position, none otherwise. -/
def resolveKey (keys : List PublicKey) (index : Int) : Option PublicKey :=
  if 0 ≤ index then keys.get? index.toNat else none

/-! ### Basic lemmas about findIdx? with the default start index -/

/-- Cons unfolding of findIdx? at start index 0. -/
theorem findIdxq_cons (p : PublicKey → Bool) (a : PublicKey) (t : List PublicKey) :
    (a :: t).findIdx? p = if p a then some 0 else (t.findIdx? p).map (· + 1) := by
  rw [List.findIdx?_cons]
  by_cases h : p a
  · simp [h]
  · simp [h, List.findIdx?_succ]

/-- A key reported absent by findIdx? is not a member. -/
theorem not_mem_of_findIdxq_eq_none {keys : List PublicKey} {s : PublicKey}
    (h : keys.findIdx? (· == s) = none) : s ∉ keys := by
  rw [List.findIdx?_eq_none_iff] at h
  intro hmem
  have hfalse := h s hmem
  simp at hfalse

/-- Erasing the position reported by findIdx? is erasing the key. -/
theorem eraseIdx_of_findIdxq {s : PublicKey} :
    ∀ {keys : List PublicKey} {j : Nat},
      keys.findIdx? (· == s) = some j → keys.eraseIdx j = keys.erase s := by
  intro keys
  induction keys with
  | nil => intro j h; simp at h
  | cons a t ih =>
    intro j h
    rw [findIdxq_cons] at h
    by_cases ha : (a == s) = true
    · rw [if_pos ha] at h
      obtain rfl : 0 = j := Option.some.inj h
      have haeq : a = s := by simpa using ha
      subst haeq
      simp [List.eraseIdx]
    · rw [if_neg ha] at h
      obtain ⟨k, hk, rfl⟩ := Option.map_eq_some'.mp h
      have hne : ¬(a == s) := ha
      rw [List.erase_cons_tail hne]
      simpa [List.eraseIdx] using ih hk

/-- In a duplicate-free list, findIdx? locates each element at its own
position. -/
theorem findIdxq_get_of_nodup {keys : List PublicKey} (h : keys.Nodup)
    (i : Nat) (hi : i < keys.length) :
    keys.findIdx? (· == keys.get ⟨i, hi⟩) = some i := by
  rw [List.findIdx?_eq_some_iff_getElem]
  refine ⟨hi, by simp, ?_⟩
  intro j hji
  have hne : keys.get ⟨j, Nat.lt_trans hji hi⟩ ≠ keys.get ⟨i, hi⟩ := by
    intro heq
    have hfin := (h.get_inj_iff).mp heq
    exact absurd (congrArg Fin.val hfin) (Nat.ne_of_lt hji)
  simp only [List.get_eq_getElem] at hne
  simp only [List.get_eq_getElem, beq_eq_false_iff_ne, ne_eq, Bool.not_eq_true]
  simpa using hne

/-- findIndexJS of an element of a duplicate-free list is its position. -/
theorem findIndexJS_get_of_nodup {keys : List PublicKey} (h : keys.Nodup)
    (i : Nat) (hi : i < keys.length) :
    findIndexJS keys (keys.get ⟨i, hi⟩) = (i : Int) := by
  unfold findIndexJS
  rw [findIdxq_get_of_nodup h i hi]

/-- A hit of findIdx? on a front segment of a list is a hit on the whole
list. -/
theorem findIdxq_of_take {p : PublicKey → Bool} :
    ∀ {l : List PublicKey} {n i : Nat},
      (l.take n).findIdx? p = some i → l.findIdx? p = some i := by
  intro l
  induction l with
  | nil => intro n i h; simp at h
  | cons a t ih =>
    intro n i h
    match n with
    | 0 => simp at h
    | n + 1 =>
      rw [List.take_succ_cons, findIdxq_cons] at h
      rw [findIdxq_cons]
      by_cases ha : p a = true
      · rwa [if_pos ha] at h ⊢
      · rw [if_neg ha] at h ⊢
        obtain ⟨k, hk, rfl⟩ := Option.map_eq_some'.mp h
        rw [ih hk]
        rfl

/-! ### The account-table rewrite as erase and cons -/

/-- The part_002 table rewrite always produces the sponsor followed by the
input keys with the sponsor first occurrence erased. -/
theorem newStaticAccountKeys_eq (keys : List PublicKey) (s : PublicKey) :
    newStaticAccountKeys keys s = s :: keys.erase s := by
  cases hf : keys.findIdx? (· == s) with
  | none =>
    simp only [newStaticAccountKeys, hf]
    rw [List.erase_of_not_mem (not_mem_of_findIdxq_eq_none hf)]
  | some k =>
    simp only [newStaticAccountKeys, hf]
    by_cases hk : k = 0
    · subst hk
      rw [if_pos rfl]
      cases keys with
      | nil => simp at hf
      | cons a t =>
        rw [findIdxq_cons] at hf
        by_cases ha : (a == s) = true
        · have haeq : a = s := by simpa using ha
          subst haeq
          rw [List.erase_cons_head]
        · rw [if_neg ha] at hf
          obtain ⟨j, _, hj0⟩ := Option.map_eq_some'.mp hf
          omega
    · rw [if_neg hk, eraseIdx_of_findIdxq hf]

/-- The key table produced by rewriteMessage, in closed form. -/
theorem rewriteMessage_keys (message : MessageV0) (s : PublicKey) :
    (rewriteMessage message s).staticAccountKeys =
      s :: message.staticAccountKeys.erase s := by
  rw [← newStaticAccountKeys_eq]
  rfl

/-! ### The index mapping over enumFrom -/

/-- Looking an in-range old index up in the enumerated mapping finds the
entry for exactly that index. -/
theorem find_mapping_some (nk : List PublicKey) :
    ∀ (l : List PublicKey) (s j : Nat) (hj : j < l.length),
      ((l.enumFrom s).map (fun p => (p.1, findIndexJS nk p.2))).find?
          (fun m => ((m.1 : Int) == ((s + j : Nat) : Int))) =
        some (s + j, findIndexJS nk (l.get ⟨j, hj⟩)) := by
  intro l
  induction l with
  | nil => intro s j hj; simp at hj
  | cons a t ih =>
    intro s j hj
    rw [List.enumFrom_cons, List.map_cons]
    match j with
    | 0 =>
      rw [List.find?_cons_of_pos _ (by simp)]
      simp
    | k + 1 =>
      rw [List.find?_cons_of_neg _ (by simp; omega)]
      have hk : k < t.length := by simpa using Nat.lt_of_succ_lt_succ hj
      have := ih (s + 1) k hk
      simp only [Nat.add_succ, Nat.succ_add] at this ⊢
      exact this

/-- Looking an out-of-range old index up in the enumerated mapping finds
nothing. -/
theorem find_mapping_none (nk : List PublicKey) :
    ∀ (l : List PublicKey) (s : Nat) (i : Int),
      (i < (s : Int) ∨ ((s + l.length : Nat) : Int) ≤ i) →
      ((l.enumFrom s).map (fun p => (p.1, findIndexJS nk p.2))).find?
          (fun m => ((m.1 : Int) == i)) = none := by
  intro l
  induction l with
  | nil => intro s i h; simp
  | cons a t ih =>
    intro s i h
    simp only [List.length_cons] at h
    push_cast at h
    rw [List.enumFrom_cons, List.map_cons]
    rw [List.find?_cons_of_neg _ (by simp only [beq_iff_eq]; intro hsi; omega)]
    apply ih (s + 1)
    push_cast
    omega

/-- newAccountIndex on an in-range old index is the position of the same
key in the new table. -/
theorem newAccountIndex_of_lt {ok nk : List PublicKey} {j : Nat} (hj : j < ok.length) :
    newAccountIndex ok nk ((j : Nat) : Int) = findIndexJS nk (ok.get ⟨j, hj⟩) := by
  unfold newAccountIndex accountIndexMapping
  rw [List.enum_eq_enumFrom]
  have h := find_mapping_some nk ok 0 j hj
  simp only [Nat.zero_add] at h
  rw [h]

/-- newAccountIndex on an out-of-range old index returns it unchanged. -/
theorem newAccountIndex_out_of_range {ok nk : List PublicKey} {i : Int}
    (h : i < 0 ∨ (ok.length : Int) ≤ i) :
    newAccountIndex ok nk i = i := by
  unfold newAccountIndex accountIndexMapping
  rw [List.enum_eq_enumFrom]
  rw [find_mapping_none nk ok 0 i (by push_cast; omega)]

/-- Remapping against an unchanged duplicate-free table is the identity on
every index. -/
theorem newAccountIndex_self {keys : List PublicKey} (h : keys.Nodup) (i : Int) :
    newAccountIndex keys keys i = i := by
  by_cases hrange : 0 ≤ i ∧ i < (keys.length : Int)
  · obtain ⟨h0, hlen⟩ := hrange
    have hj : i.toNat < keys.length := by omega
    have hi : i = ((i.toNat : Nat) : Int) := by omega
    rw [hi, newAccountIndex_of_lt hj, findIndexJS_get_of_nodup h i.toNat hj]
  · apply newAccountIndex_out_of_range
    omega

/-- Remapping a whole index list against an unchanged duplicate-free table
is the identity. -/
theorem newAccountIndexes_self {keys : List PublicKey} (h : keys.Nodup)
    (ix : List Int) : newAccountIndexes keys keys ix = ix := by
  unfold newAccountIndexes
  induction ix with
  | nil => rfl
  | cons a t ih => rw [List.map_cons, newAccountIndex_self h, ih]

/-! ### The part_002 handler success path -/

/-- Signing the rewritten transaction always succeeds and writes slot 0,
because the rewrite always places the sponsor at the head of the key table
and the new header always requires at least two signatures. -/
theorem signTransaction_v0_rewrite (sigFn : DecodedMessage → Signature)
    (sponsorPubkey : PublicKey) (message : MessageV0) (sigs : List Signature) :
    signTransaction sigFn sponsorPubkey
        ⟨.v0 (rewriteMessage message sponsorPubkey), sigs⟩ =
      some ⟨.v0 (rewriteMessage message sponsorPubkey),
        sigs.set 0 (sigFn (.v0 (rewriteMessage message sponsorPubkey)))⟩ := by
  have hm : (rewriteMessage message sponsorPubkey).header.numRequiredSignatures =
      (max 2 message.header.numRequiredSignatures - 1) + 1 := by
    have : (rewriteMessage message sponsorPubkey).header.numRequiredSignatures =
        max 2 message.header.numRequiredSignatures := rfl
    omega
  simp only [signTransaction, DecodedMessage.staticKeys, DecodedMessage.headerOf]
  rw [hm, rewriteMessage_keys, List.take_succ_cons, findIdxq_cons]
  simp

/-- The part_002 handler on any v0 input: it always answers ok with the
rewritten message, the sponsor signature in slot 0 followed by one empty
slot per further required signer, and that same signature in the response
body. -/
theorem handlerPart002_v0_eq (sigFn : DecodedMessage → Signature)
    (sponsorPubkey : PublicKey) (message : MessageV0) (inputSignatures : List Signature) :
    handlerPart002 sigFn sponsorPubkey ⟨.v0 message, inputSignatures⟩ =
      ApiResponse.ok
        ⟨.v0 (rewriteMessage message sponsorPubkey),
          sigFn (.v0 (rewriteMessage message sponsorPubkey)) ::
            List.replicate (max 2 message.header.numRequiredSignatures - 1) emptySignature⟩
        (sigFn (.v0 (rewriteMessage message sponsorPubkey))) := by
  have hm : (rewriteMessage message sponsorPubkey).header.numRequiredSignatures =
      (max 2 message.header.numRequiredSignatures - 1) + 1 := by
    have : (rewriteMessage message sponsorPubkey).header.numRequiredSignatures =
        max 2 message.header.numRequiredSignatures := rfl
    omega
  simp only [handlerPart002]
  rw [signTransaction_v0_rewrite]
  rw [hm, List.replicate_succ, List.set_cons_zero]
  rfl

/-! ### Identity of the mapping on an unchanged duplicate-free table -/

/-- Over any enumFrom segment whose keys find themselves at their own
positions, the mapping is the identity pairing. -/
theorem mapping_self_enumFrom {full : List PublicKey} :
    ∀ (l : List PublicKey) (s : Nat),
      (∀ j (hj : j < l.length), findIndexJS full (l.get ⟨j, hj⟩) = ((s + j : Nat) : Int)) →
      (l.enumFrom s).map (fun p => (p.1, findIndexJS full p.2)) =
        (l.enumFrom s).map (fun p => (p.1, (p.1 : Int))) := by
  intro l
  induction l with
  | nil => intro s h; rfl
  | cons a t ih =>
    intro s h
    rw [List.enumFrom_cons, List.map_cons, List.map_cons]
    have h0 := h 0 (by simp)
    simp only [List.get] at h0
    rw [h0]
    simp only [Nat.add_zero]
    congr 1
    apply ih (s + 1)
    intro j hj
    have hstep := h (j + 1) (by simpa using Nat.succ_lt_succ hj)
    simp only [List.get] at hstep
    simp only [Nat.add_succ, Nat.succ_add] at hstep ⊢
    exact hstep

/-- Under a duplicate-free key table left unchanged, part_002's index
mapping is the identity pairing on all positions. -/
theorem accountIndexMapping_self {keys : List PublicKey} (h : keys.Nodup) :
    accountIndexMapping keys keys = keys.enum.map (fun p => (p.1, (p.1 : Int))) := by
  unfold accountIndexMapping
  apply mapping_self_enumFrom
  intro j hj
  rw [findIndexJS_get_of_nodup h j hj]
  simp

/-- Rewriting the instruction list against an unchanged duplicate-free
table leaves every instruction unchanged. -/
theorem map_instructions_self {keys : List PublicKey} (h : keys.Nodup)
    (insts : List CompiledInstruction) :
    insts.map (fun instruction =>
      { instruction with
        accountKeyIndexes := newAccountIndexes keys keys instruction.accountKeyIndexes }) =
      insts := by
  induction insts with
  | nil => rfl
  | cons i t ih =>
    rw [List.map_cons, newAccountIndexes_self h, ih]

/-- Prepending the head of a list to the list with that head erased gives
the list back. -/
theorem erase_head_self {keys : List PublicKey} {s : PublicKey}
    (h : keys.head? = some s) : s :: keys.erase s = keys := by
  cases keys with
  | nil => simp at h
  | cons a t =>
    have ha : a = s := by simpa using h
    subst ha
    rw [List.erase_cons_head]

/-- Signing never changes the message of a transaction, only its signature
slots. -/
theorem signTransaction_message {sigFn : DecodedMessage → Signature}
    {sponsorPubkey : PublicKey} {tx signed : DecodedTransaction}
    (h : signTransaction sigFn sponsorPubkey tx = some signed) :
    signed.message = tx.message := by
  simp only [signTransaction] at h
  cases hi : (tx.message.staticKeys.take tx.message.headerOf.numRequiredSignatures).findIdx?
      (· == sponsorPubkey) with
  | none => rw [hi] at h; simp at h
  | some j =>
    rw [hi] at h
    have hs := Option.some.inj h
    subst hs
    rfl

/-! ### The claims -/

/-- C1: the claim states that each instruction's programIdIndex and every
accountIndexes entry are replaced by the permutation of the old index, so
that they resolve to the same keys as before.  The code remaps only
accountKeyIndexes: on a message with one key 10, one instruction with
programIdIndex 0, and sponsor 7 absent, the rewrite shifts the account
index 0 to 1 but leaves programIdIndex at 0, which now resolves to the
sponsor key 7 instead of the original key 10. -/
theorem c1_programIdIndex_not_remapped :
    rewriteMessage ⟨⟨1, 0, 0⟩, [10], 0, [⟨0, [0], []⟩], []⟩ 7 =
      ⟨⟨2, 0, 0⟩, [7, 10], 0, [⟨0, [1], []⟩], []⟩ ∧
    resolveKey
        (rewriteMessage ⟨⟨1, 0, 0⟩, [10], 0, [⟨0, [0], []⟩], []⟩ 7).staticAccountKeys 0 =
      some 7 ∧
    resolveKey (⟨⟨1, 0, 0⟩, [10], 0, [⟨0, [0], []⟩], []⟩ : MessageV0).staticAccountKeys 0 =
      some 10 := by
  refine ⟨by decide, rfl, rfl⟩

/-- C2 counterexample: the claim states numRequiredSignatures grows by one
when the sponsor was not already a signer.  On a message with keys 1, 2,
two required signatures and sponsor 7 absent, the code keeps the count at
max 2 2 = 2 instead of 3. -/
theorem c2_counterexample :
    findIndexJS (⟨⟨2, 0, 0⟩, [1, 2], 0, [], []⟩ : MessageV0).staticAccountKeys 7 = -1 ∧
    (rewriteMessage ⟨⟨2, 0, 0⟩, [1, 2], 0, [], []⟩ 7).header.numRequiredSignatures = 2 ∧
    (rewriteMessage ⟨⟨2, 0, 0⟩, [1, 2], 0, [], []⟩ 7).header.numRequiredSignatures ≠
      (⟨⟨2, 0, 0⟩, [1, 2], 0, [], []⟩ : MessageV0).header.numRequiredSignatures + 1 := by
  refine ⟨rfl, rfl, by decide⟩

/-- C2 amended: part_002 sets the output numRequiredSignatures to
max 2 original, not to original plus one; the two read-only counts are
carried over unchanged; draft 1 of sponsor-transaction.ts sets the count
to the constant 2. -/
theorem c2_header_max_two (message : MessageV0) (sponsorPubkey : PublicKey) :
    (rewriteMessage message sponsorPubkey).header.numRequiredSignatures =
      max 2 message.header.numRequiredSignatures ∧
    (rewriteMessage message sponsorPubkey).header.numReadonlySignedAccounts =
      message.header.numReadonlySignedAccounts ∧
    (rewriteMessage message sponsorPubkey).header.numReadonlyUnsignedAccounts =
      message.header.numReadonlyUnsignedAccounts ∧
    (draft1NewMessage message sponsorPubkey).header.numRequiredSignatures = 2 :=
  ⟨rfl, rfl, rfl, rfl⟩

/-- C3: when the first account key is not the sponsor key, the new key
table is the sponsor prepended at index 0 with the sponsor previous
occurrence (if any) erased, and the remaining keys keep their relative
input order (they form a sublist of the input keys). -/
theorem c3_sponsor_prepended (message : MessageV0) (sponsorPubkey : PublicKey)
    (h : message.staticAccountKeys.head? ≠ some sponsorPubkey) :
    (rewriteMessage message sponsorPubkey).staticAccountKeys =
      sponsorPubkey :: message.staticAccountKeys.erase sponsorPubkey ∧
    (message.staticAccountKeys.erase sponsorPubkey).Sublist message.staticAccountKeys :=
  ⟨rewriteMessage_keys message sponsorPubkey, List.erase_sublist _ _⟩

/-- Witness for C3 at keys 1, 2, 7, 3 with sponsor 7 at position 2. -/
theorem c3_witness :
    (⟨⟨1, 0, 0⟩, [1, 2, 7, 3], 0, [], []⟩ : MessageV0).staticAccountKeys.head? ≠ some 7 ∧
    ((rewriteMessage ⟨⟨1, 0, 0⟩, [1, 2, 7, 3], 0, [], []⟩ 7).staticAccountKeys =
        7 :: (⟨⟨1, 0, 0⟩, [1, 2, 7, 3], 0, [], []⟩ : MessageV0).staticAccountKeys.erase 7 ∧
      ((⟨⟨1, 0, 0⟩, [1, 2, 7, 3], 0, [], []⟩ : MessageV0).staticAccountKeys.erase 7).Sublist
        (⟨⟨1, 0, 0⟩, [1, 2, 7, 3], 0, [], []⟩ : MessageV0).staticAccountKeys) :=
  ⟨by decide, c3_sponsor_prepended ⟨⟨1, 0, 0⟩, [1, 2, 7, 3], 0, [], []⟩ 7 (by decide)⟩

/-- C4 counterexample: the claim states the output message is identical to
the input when the sponsor is already at index 0.  On a message with the
sponsor 5 at index 0 and one required signature, the code still raises
numRequiredSignatures to 2, so the output message differs from the
input. -/
theorem c4_counterexample :
    (⟨⟨1, 0, 0⟩, [5], 0, [], []⟩ : MessageV0).staticAccountKeys.head? = some 5 ∧
    rewriteMessage ⟨⟨1, 0, 0⟩, [5], 0, [], []⟩ 5 ≠ ⟨⟨1, 0, 0⟩, [5], 0, [], []⟩ :=
  ⟨rfl, by decide⟩

/-- C4 amended: for a duplicate-free message with the sponsor already at
index 0, the key table is unchanged and the index mapping is the identity
pairing; the whole output message equals the input exactly when the input
already required at least two signatures (otherwise only the header's
numRequiredSignatures is raised to 2). -/
theorem c4_idempotent_when_two_signers (message : MessageV0) (sponsorPubkey : PublicKey)
    (hnodup : message.staticAccountKeys.Nodup)
    (hhead : message.staticAccountKeys.head? = some sponsorPubkey) :
    (rewriteMessage message sponsorPubkey).staticAccountKeys = message.staticAccountKeys ∧
    accountIndexMapping message.staticAccountKeys
        (rewriteMessage message sponsorPubkey).staticAccountKeys =
      message.staticAccountKeys.enum.map (fun p => (p.1, (p.1 : Int))) ∧
    (2 ≤ message.header.numRequiredSignatures →
      rewriteMessage message sponsorPubkey = message) := by
  have hkeys : (rewriteMessage message sponsorPubkey).staticAccountKeys =
      message.staticAccountKeys := by
    rw [rewriteMessage_keys, erase_head_self hhead]
  refine ⟨hkeys, ?_, ?_⟩
  · rw [hkeys, accountIndexMapping_self hnodup]
  · intro h2
    have hk2 : newStaticAccountKeys message.staticAccountKeys sponsorPubkey =
        message.staticAccountKeys := hkeys
    obtain ⟨⟨nrs, ro, rou⟩, keys, bh, insts, lut⟩ := message
    simp only [rewriteMessage, newHeader]
    rw [hk2, Nat.max_eq_right h2, map_instructions_self hnodup insts]

/-- Witness for C4 at keys 5, 1 with sponsor 5 at index 0 and two required
signatures: the rewrite is the identity on the whole message. -/
theorem c4_witness :
    ((⟨⟨2, 0, 0⟩, [5, 1], 0, [⟨0, [0, 1], [9]⟩], []⟩ : MessageV0).staticAccountKeys.Nodup ∧
      (⟨⟨2, 0, 0⟩, [5, 1], 0, [⟨0, [0, 1], [9]⟩], []⟩ :
          MessageV0).staticAccountKeys.head? = some 5 ∧
      2 ≤ (⟨⟨2, 0, 0⟩, [5, 1], 0, [⟨0, [0, 1], [9]⟩], []⟩ :
          MessageV0).header.numRequiredSignatures) ∧
    rewriteMessage ⟨⟨2, 0, 0⟩, [5, 1], 0, [⟨0, [0, 1], [9]⟩], []⟩ 5 =
      ⟨⟨2, 0, 0⟩, [5, 1], 0, [⟨0, [0, 1], [9]⟩], []⟩ :=
  ⟨⟨by decide, by decide, by decide⟩,
    (c4_idempotent_when_two_signers ⟨⟨2, 0, 0⟩, [5, 1], 0, [⟨0, [0, 1], [9]⟩], []⟩ 5
      (by decide) (by decide)).2.2 (by decide)⟩

/-- C5 counterexample: the claim states an instruction index at or beyond
the key-table length makes the rewrite fail with DanglingAccountIndex.  On
a message with one key 3 and an instruction referencing index 5, the
handler instead succeeds: it answers ok, and the out-of-range index 5 is
carried into the output unchanged. -/
theorem c5_counterexample :
    ((⟨⟨1, 0, 0⟩, [3], 0, [⟨0, [5], []⟩], []⟩ :
        MessageV0).staticAccountKeys.length : Int) ≤ 5 ∧
    (rewriteMessage ⟨⟨1, 0, 0⟩, [3], 0, [⟨0, [5], []⟩], []⟩ 3).compiledInstructions =
      [⟨0, [5], []⟩] ∧
    handlerPart002 (fun _ => List.replicate 64 9) 3
        ⟨.v0 ⟨⟨1, 0, 0⟩, [3], 0, [⟨0, [5], []⟩], []⟩, []⟩ =
      ApiResponse.ok
        ⟨.v0 (rewriteMessage ⟨⟨1, 0, 0⟩, [3], 0, [⟨0, [5], []⟩], []⟩ 3),
          [List.replicate 64 9, emptySignature]⟩ (List.replicate 64 9) := by
  refine ⟨by decide, by decide, rfl⟩

/-- C5 amended: an account index outside the range of the input key table
is not rejected; the remapping returns it unchanged, and the handler still
produces an ok response carrying a transaction. -/
theorem c5_out_of_range_passthrough (message : MessageV0) (sponsorPubkey : PublicKey)
    (sigFn : DecodedMessage → Signature) (inputSignatures : List Signature) (i : Int)
    (h : i < 0 ∨ (message.staticAccountKeys.length : Int) ≤ i) :
    newAccountIndex message.staticAccountKeys
        (newStaticAccountKeys message.staticAccountKeys sponsorPubkey) i = i ∧
    ∃ t s, handlerPart002 sigFn sponsorPubkey ⟨.v0 message, inputSignatures⟩ =
        ApiResponse.ok t s :=
  ⟨newAccountIndex_out_of_range h,
    ⟨_, _, handlerPart002_v0_eq sigFn sponsorPubkey message inputSignatures⟩⟩

/-- Witness for C5 at the out-of-range index 5 against the one-key table
3. -/
theorem c5_witness :
    ((5 : Int) < 0 ∨
      ((⟨⟨1, 0, 0⟩, [3], 0, [⟨0, [5], []⟩], []⟩ :
          MessageV0).staticAccountKeys.length : Int) ≤ 5) ∧
    (newAccountIndex [3] (newStaticAccountKeys [3] 3) 5 = 5 ∧
      ∃ t s, handlerPart002 (fun _ => List.replicate 64 9) 3
          ⟨.v0 ⟨⟨1, 0, 0⟩, [3], 0, [⟨0, [5], []⟩], []⟩, []⟩ = ApiResponse.ok t s) :=
  ⟨by decide,
    c5_out_of_range_passthrough ⟨⟨1, 0, 0⟩, [3], 0, [⟨0, [5], []⟩], []⟩ 3
      (fun _ => List.replicate 64 9) [] 5 (by decide)⟩

/-- C6 counterexample: the claim states every non-v0 input is rejected
without signing or returning a transaction, but the legacy branch of the
second draft in sponsor-transaction.ts signs a legacy transaction whose
key list contains the sponsor and returns it with status ok. -/
theorem c6_counterexample :
    handlerDraft2 (fun _ => List.replicate 64 9) 7
        ⟨.legacy ⟨⟨1, 0, 0⟩, [7], 0, []⟩, [emptySignature]⟩ =
      ApiResponse.ok ⟨.legacy ⟨⟨1, 0, 0⟩, [7], 0, []⟩, [List.replicate 64 9]⟩
        (List.replicate 64 9) := rfl

/-- C6 amended: part_002 and draft 1 of sponsor-transaction.ts reject every
legacy input with an error response and never return a transaction; only
draft 2 signs and returns legacy transactions. -/
theorem c6_legacy_rejected (sigFn : DecodedMessage → Signature)
    (sponsorPubkey : PublicKey) (message : LegacyMessage)
    (inputSignatures : List Signature) :
    handlerPart002 sigFn sponsorPubkey ⟨.legacy message, inputSignatures⟩ =
      ApiResponse.error "Only versioned transactions are supported" ∧
    handlerDraft1 sigFn sponsorPubkey ⟨.legacy message, inputSignatures⟩ =
      ApiResponse.error "Only versioned transactions are supported" :=
  ⟨rfl, rfl⟩

/-- C7: on every v0 input the part_002 handler answers ok; the sponsor sits
at index 0 of the new key table, the transaction carries exactly one slot
per required signer, slot 0 holds the sponsor signature, every further
slot is the empty 64-zero-byte signature, and the same signature is
returned separately in the response body. -/
theorem c7_signature_slots (sigFn : DecodedMessage → Signature)
    (sponsorPubkey : PublicKey) (message : MessageV0) (inputSignatures : List Signature) :
    handlerPart002 sigFn sponsorPubkey ⟨.v0 message, inputSignatures⟩ =
      ApiResponse.ok
        ⟨.v0 (rewriteMessage message sponsorPubkey),
          sigFn (.v0 (rewriteMessage message sponsorPubkey)) ::
            List.replicate (max 2 message.header.numRequiredSignatures - 1) emptySignature⟩
        (sigFn (.v0 (rewriteMessage message sponsorPubkey))) ∧
    (rewriteMessage message sponsorPubkey).staticAccountKeys.head? = some sponsorPubkey ∧
    (sigFn (.v0 (rewriteMessage message sponsorPubkey)) ::
        List.replicate (max 2 message.header.numRequiredSignatures - 1)
          emptySignature).length =
      (rewriteMessage message sponsorPubkey).header.numRequiredSignatures := by
  refine ⟨handlerPart002_v0_eq sigFn sponsorPubkey message inputSignatures, ?_, ?_⟩
  · rw [rewriteMessage_keys]
    rfl
  · have hh : (rewriteMessage message sponsorPubkey).header.numRequiredSignatures =
        max 2 message.header.numRequiredSignatures := rfl
    simp only [List.length_cons, List.length_replicate, hh]
    omega

/-- C8: the rewrite carries recentBlockhash, the addressTableLookups
sequence and every instruction's opaque data bytes over unchanged. -/
theorem c8_frame_unchanged (message : MessageV0) (sponsorPubkey : PublicKey) :
    (rewriteMessage message sponsorPubkey).recentBlockhash = message.recentBlockhash ∧
    (rewriteMessage message sponsorPubkey).addressTableLookups =
      message.addressTableLookups ∧
    (rewriteMessage message sponsorPubkey).compiledInstructions.map
        (fun instruction => instruction.data) =
      message.compiledInstructions.map (fun instruction => instruction.data) := by
  refine ⟨rfl, rfl, ?_⟩
  simp only [rewriteMessage, List.map_map]
  rfl

/-- C9: in the part_001 draft the guard is the JS test (not
transaction.version); a v0 transaction has version number 0, which is
falsy, so the guard fires and the handler answers the version error for
every v0 input, without signing. -/
theorem c9_version_zero_rejected (sigFn : DecodedMessage → Signature)
    (sponsorPubkey : PublicKey) (message : MessageV0)
    (inputSignatures : List Signature) :
    handlerPart001 sigFn sponsorPubkey ⟨.v0 message, inputSignatures⟩ =
      ApiResponse.error "Invalid transaction version" := rfl

/-- C10 counterexample: the claim states every v0 input whose static keys
contain the sponsor is signed and returned.  On keys 1, 7 with one
required signature and sponsor 7, the sponsor is present in the static
keys but outside the signer range, so the library sign call throws and
the handler answers an error instead of returning the signed
transaction. -/
theorem c10_counterexample :
    (7 : PublicKey) ∈ (⟨⟨1, 0, 0⟩, [1, 7], 0, [], []⟩ : MessageV0).staticAccountKeys ∧
    handlerDraft2 (fun _ => List.replicate 64 9) 7
        ⟨.v0 ⟨⟨1, 0, 0⟩, [1, 7], 0, [], []⟩, [emptySignature]⟩ =
      ApiResponse.error "Cannot sign with non signer key" :=
  ⟨by decide, rfl⟩

/-- C10 amended: the v0 branch of draft 2 never modifies the message.  It
throws Sponsor not found when the sponsor is absent from the static keys;
every ok response carries the input message unchanged; and when the
sponsor sits among the first numRequiredSignatures keys (at a position
with a signature slot) the handler returns the input message signed at
that slot together with that signature. -/
theorem c10_draft2_no_rewrite (sigFn : DecodedMessage → Signature)
    (sponsorPubkey : PublicKey) (message : MessageV0)
    (inputSignatures : List Signature) :
    (message.staticAccountKeys.findIdx? (· == sponsorPubkey) = none →
      handlerDraft2 sigFn sponsorPubkey ⟨.v0 message, inputSignatures⟩ =
        ApiResponse.error "Sponsor not found in transaction signers") ∧
    (∀ t s, handlerDraft2 sigFn sponsorPubkey ⟨.v0 message, inputSignatures⟩ =
        ApiResponse.ok t s → t.message = .v0 message) ∧
    (∀ i, (message.staticAccountKeys.take
          message.header.numRequiredSignatures).findIdx? (· == sponsorPubkey) = some i →
      i < inputSignatures.length →
      handlerDraft2 sigFn sponsorPubkey ⟨.v0 message, inputSignatures⟩ =
        ApiResponse.ok ⟨.v0 message, inputSignatures.set i (sigFn (.v0 message))⟩
          (sigFn (.v0 message))) := by
  refine ⟨?_, ?_, ?_⟩
  · intro hnone
    simp only [handlerDraft2]
    rw [hnone]
  · intro t s hok
    simp only [handlerDraft2] at hok
    split at hok
    · simp at hok
    · split at hok
      · simp at hok
      · rename_i signed hsign
        split at hok
        · injection hok with h1 h2
          subst h1
          exact signTransaction_message hsign
        · simp at hok
  · intro i htake hlen
    have hfull := findIdxq_of_take htake
    simp only [handlerDraft2]
    rw [hfull]
    simp only [signTransaction, DecodedMessage.staticKeys, DecodedMessage.headerOf]
    rw [htake]
    have hget : (inputSignatures.set i (sigFn (.v0 message))).get? i =
        some (sigFn (.v0 message)) := by
      rw [List.get?_eq_getElem?]
      exact List.getElem?_set_self hlen
    simp only [hget]

/-- Witness for C10: keys 7, 1 with one required signature, sponsor 7 in
the signer range; the original message is signed at slot 0 and returned
unchanged. -/
theorem c10_witness :
    ((((⟨⟨1, 0, 0⟩, [7, 1], 0, [], []⟩ : MessageV0).staticAccountKeys.take
          (⟨⟨1, 0, 0⟩, [7, 1], 0, [], []⟩ : MessageV0).header.numRequiredSignatures).findIdx?
        (· == 7) = some 0) ∧
      0 < ([emptySignature] : List Signature).length) ∧
    handlerDraft2 (fun _ => List.replicate 64 9) 7
        ⟨.v0 ⟨⟨1, 0, 0⟩, [7, 1], 0, [], []⟩, [emptySignature]⟩ =
      ApiResponse.ok
        ⟨.v0 ⟨⟨1, 0, 0⟩, [7, 1], 0, [], []⟩,
          ([emptySignature] : List Signature).set 0 (List.replicate 64 9)⟩
        (List.replicate 64 9) :=
  ⟨⟨by decide, by decide⟩,
    (c10_draft2_no_rewrite (fun _ => List.replicate 64 9) 7
        ⟨⟨1, 0, 0⟩, [7, 1], 0, [], []⟩ [emptySignature]).2.2 0 (by decide) (by decide)⟩
